import Mathlib

/-
  Verification development for the qdb-rust client layer.

  Shallow embedding of the subscription registry (framework/notification.rs),
  the event emitter (framework/events/emitter.rs), the connection supervisor
  (framework/workers/database.rs) and the scheduler loop
  (framework/application.rs).  Shared mutable cells of the source become
  explicit state passing; HashMap and HashSet become association lists with
  insert-or-replace and first-match lookup; mpsc channels become buffers
  tagged with whether the receiving end is still alive.  Registry operations
  additionally return the list of transport calls they issued, and the
  supervisor tick returns the ordered list of its observable actions, so that
  call-counting properties can be stated.
-/

namespace Qdb

/-- Modelled from the spec: the error taxonomy of section 7 (TransportError,
FieldTypeError, NotificationError).  The source crate declares a module named
error whose file is absent from src; its use sites construct notification
errors from a message or propagate transport failures. -/
inductive Error where
  | transport (msg : String)
  | notification (msg : String)
  | fieldType (msg : String)
deriving DecidableEq, Repr

/-- NotificationToken (schema/notification.rs): a newtype over String. -/
abbrev NotificationToken := String

/-- NotificationConfig (schema/notification.rs): the filter identifying a
class of change events; structural equality, usable as a map key. -/
structure NotificationConfig where
  entity_id : String
  entity_type : String
  field : String
  notify_on_change : Bool
  context : List String
deriving DecidableEq, Repr

/-- DatabaseField (schema/field.rs), reduced to its addressing part.  The
registry, supervisor and scheduler never inspect value, write_time or
writer_id, so those payload components are not modelled. -/
structure DatabaseField where
  entity_id : String
  name : String
deriving DecidableEq, Repr

/-- DatabaseNotification (schema/notification.rs). -/
structure DatabaseNotification where
  token : String
  current : DatabaseField
  previous : DatabaseField
  context : List DatabaseField
deriving DecidableEq, Repr

/-- First-match lookup in an association list; HashMap get of the source. -/
def mapLookup {α β : Type} [DecidableEq α] (m : List (α × β)) (k : α) : Option β :=
  match m with
  | [] => none
  | p :: rest => if p.1 = k then some p.2 else mapLookup rest k

/-- Insert-or-replace; HashMap insert of the source. -/
def mapInsert {α β : Type} [DecidableEq α] (m : List (α × β)) (k : α) (v : β) :
    List (α × β) :=
  match m with
  | [] => [(k, v)]
  | p :: rest => if p.1 = k then (k, v) :: rest else p :: mapInsert rest k v

/-- Remove a key; HashMap remove of the source. -/
def mapErase {α β : Type} [DecidableEq α] (m : List (α × β)) (k : α) : List (α × β) :=
  match m with
  | [] => []
  | p :: rest => if p.1 = k then mapErase rest k else p :: mapErase rest k

/-- The key list of an association list. -/
def keysOf {α β : Type} (m : List (α × β)) : List α := m.map Prod.fst

/-- HashSet insert of the source. -/
def setInsert {α : Type} [DecidableEq α] (s : List α) (a : α) : List α :=
  if a ∈ s then s else a :: s

/-- One mpsc channel as seen from the sending side: whether the receiving end
is still alive, and the messages buffered for the receiver in FIFO order. -/
structure Channel (T : Type) where
  alive : Bool
  buffer : List T
deriving DecidableEq, Repr

/-- Sender send: succeeds exactly when the receiving end is alive. -/
def Channel.send {T : Type} (c : Channel T) (x : T) : Option (Channel T) :=
  if c.alive then some ⟨true, c.buffer ++ [x]⟩ else none

/-- Emitter (framework/events/emitter.rs): sender map keyed by SlotToken. -/
structure Emitter (T : Type) where
  senders : List (Nat × Channel T)
deriving DecidableEq, Repr

namespace Emitter

def new {T : Type} : Emitter T := ⟨[]⟩

/-- Emitter connect.  The source draws SlotToken ids from a process global
atomic counter; the counter is threaded explicitly here and returned bumped. -/
def connect {T : Type} (e : Emitter T) (ctr : Nat) : Nat × Emitter T × Nat :=
  (ctr, ⟨mapInsert e.senders ctr ⟨true, []⟩⟩, ctr + 1)

def disconnect {T : Type} (e : Emitter T) (id : Nat) : Emitter T :=
  ⟨mapErase e.senders id⟩

/-- Emitter new_receiver: create a channel, connect its sender and hand back
the receiving end, identified here by the slot id of the new channel. -/
def new_receiver {T : Type} (e : Emitter T) (ctr : Nat) : Nat × Emitter T × Nat :=
  e.connect ctr

/-- Emitter emit: deliver a copy of the value to every sender, retaining
exactly those whose send succeeded, so channels whose receiver is gone are
pruned as a side effect. -/
def emit {T : Type} (e : Emitter T) (x : T) : Emitter T :=
  ⟨e.senders.filterMap (fun p => (Channel.send p.2 x).map (fun c => (p.1, c)))⟩

end Emitter

/-- ClientTrait (clients/common.rs) as consumed by the registry, embedded as
the responses the transport gives to the single call of each kind one registry
operation can make; per the spec, section 7, its failures are transport
errors, carried here as their message. -/
structure Client where
  register_notification : NotificationConfig → Except String NotificationToken
  unregister_notification : NotificationToken → Except String Unit
  get_notifications : Except String (List DatabaseNotification)

/-- Instrumentation: one transport call issued by a registry operation. -/
inductive TransportCall where
  | registerNotification (config : NotificationConfig)
  | unregisterNotification (token : NotificationToken)
  | getNotifications
deriving DecidableEq, Repr

def inconsistentMsg : String := "Inconsistent notification state during registration"

def tokenNotFoundMsg : String := "Token not found during unregistration"

def unknownTokenMsg : String :=
  "Cannot process notification: Callback list doesn't exist for token"

/-- The subscription registry state (framework/notification.rs,
struct _NotificationManager).  slot_ctr threads the process global SlotToken
counter of the emitter module. -/
structure _NotificationManager where
  registered_config : List NotificationConfig
  config_to_token : List (NotificationConfig × NotificationToken)
  token_to_callback_list : List (NotificationToken × Emitter DatabaseNotification)
  slot_ctr : Nat
deriving DecidableEq, Repr

namespace _NotificationManager

def new : _NotificationManager := ⟨[], [], [], 0⟩

/-- _NotificationManager clear: drop all registry state locally; the function
takes no client and issues no transport call. -/
def clear (s : _NotificationManager) : _NotificationManager :=
  { s with registered_config := [], config_to_token := [], token_to_callback_list := [] }

/-- _NotificationManager register: subscribe to a config, deduplicating the
remote subscription.  Returns the receiver (its slot id), the new state and
the transport calls issued. -/
def register (client : Client) (config : NotificationConfig) (s : _NotificationManager) :
    Except Error Nat × _NotificationManager × List TransportCall :=
  if config ∈ s.registered_config then
    match mapLookup s.config_to_token config with
    | none => (.error (.notification inconsistentMsg), s, [])
    | some token =>
      match mapLookup s.token_to_callback_list token with
      | none => (.error (.notification inconsistentMsg), s, [])
      | some em =>
        let r := em.new_receiver s.slot_ctr
        (.ok r.1,
         { s with token_to_callback_list := mapInsert s.token_to_callback_list token r.2.1,
                  slot_ctr := r.2.2 },
         [])
  else
    match client.register_notification config with
    | .error e => (.error (.transport e), s, [.registerNotification config])
    | .ok token =>
      let s1 : _NotificationManager := { s with
        registered_config := setInsert s.registered_config config,
        config_to_token := mapInsert s.config_to_token config token,
        token_to_callback_list := mapInsert s.token_to_callback_list token Emitter.new }
      match mapLookup s1.token_to_callback_list token with
      | none => (.error (.notification inconsistentMsg), s1, [.registerNotification config])
      | some em =>
        let r := em.new_receiver s1.slot_ctr
        (.ok r.1,
         { s1 with token_to_callback_list := mapInsert s1.token_to_callback_list token r.2.1,
                   slot_ctr := r.2.2 },
         [.registerNotification config])

/-- _NotificationManager unregister: validate the token, call the transport,
then drop the token and every mapping derived from it. -/
def unregister (client : Client) (token : NotificationToken) (s : _NotificationManager) :
    Except Error Unit × _NotificationManager × List TransportCall :=
  if (mapLookup s.token_to_callback_list token).isSome then
    match client.unregister_notification token with
    | .error e => (.error (.transport e), s, [.unregisterNotification token])
    | .ok _ =>
      let c2t := (s.config_to_token).filter (fun p => decide (p.2 ≠ token))
      (.ok (),
       { s with token_to_callback_list := mapErase s.token_to_callback_list token,
                config_to_token := c2t,
                registered_config :=
                  (s.registered_config).filter (fun c => (mapLookup c2t c).isSome) },
       [.unregisterNotification token])
  else
    (.error (.notification tokenNotFoundMsg), s, [])

/-- The body of the for loop of _NotificationManager process_notifications:
emit each notification on the emitter of its token, aborting with a
notification error on the first token absent from the registry. -/
def dispatchList (ns : List DatabaseNotification) (s : _NotificationManager) :
    Except Error Unit × _NotificationManager :=
  match ns with
  | [] => (.ok (), s)
  | n :: rest =>
    match mapLookup s.token_to_callback_list n.token with
    | none => (.error (.notification unknownTokenMsg), s)
    | some em =>
      dispatchList rest
        { s with token_to_callback_list :=
            mapInsert s.token_to_callback_list n.token (em.emit n) }

/-- _NotificationManager process_notifications: poll the transport once and
dispatch the returned batch. -/
def process_notifications (client : Client) (s : _NotificationManager) :
    Except Error Unit × _NotificationManager × List TransportCall :=
  match client.get_notifications with
  | .error e => (.error (.transport e), s, [.getNotifications])
  | .ok ns =>
    let r := dispatchList ns s
    (r.1, r.2, [.getNotifications])

end _NotificationManager

/-- The stateful transport behind the framework Database, as the supervisor
tick drives it (framework/client.rs): a client state type together with the
four capabilities the tick uses.  Failures are transport error messages. -/
structure StClient (κ : Type) where
  connected : κ → Bool
  connect : κ → Except String Unit × κ
  disconnect : κ → Bool × κ
  get_notifications : κ → Except String (List DatabaseNotification) × κ

/-- The shared Database state (framework/database.rs): the transport client
state and the notification manager it owns. -/
structure DbState (κ : Type) where
  client : κ
  mgr : _NotificationManager
deriving Repr

/-- Instrumentation: one observable action of a supervisor tick, in order of
occurrence: a connectivity-changed emission, a registry clear, a transport
disconnect or connect, or a notification dispatch (process_notifications). -/
inductive SupEvent where
  | emitStatus (b : Bool)
  | clearCall
  | disconnectCall
  | connectCall
  | dispatchCall
deriving DecidableEq, Repr

/-- The emitters struct of the supervisor (framework/workers/database.rs). -/
structure WorkerEmitters where
  connection_status : Emitter Bool
deriving DecidableEq, Repr

/-- The connection supervisor (framework/workers/database.rs, struct Worker;
DatabaseWorker in the lib revision).  The network flag is fed by
process_events from a network status channel, modelled as the current value
of the flag. -/
structure DatabaseWorker where
  is_db_connected : Bool
  is_nw_connected : Bool
  emitters : WorkerEmitters
deriving DecidableEq, Repr

namespace DatabaseWorker

def new : DatabaseWorker := ⟨false, false, ⟨Emitter.new⟩⟩

/-- Worker do_work (framework/workers/database.rs): one supervisor tick.
Returns the tick result, the new worker state, the new database state and the
ordered trace of observable actions.  The emitter slot counter is not
threaded here: connectivity emissions add no channel. -/
def do_work {κ : Type} (tc : StClient κ) (w : DatabaseWorker) (db : DbState κ) :
    Except Error Unit × DatabaseWorker × DbState κ × List SupEvent :=
  if !w.is_nw_connected then
    if w.is_db_connected then
      (.ok (),
       { w with is_db_connected := false,
                emitters := ⟨w.emitters.connection_status.emit false⟩ },
       db, [.emitStatus false])
    else
      (.ok (), w, db, [])
  else
  if !(tc.connected db.client) then
    let step1 : DatabaseWorker × DbState κ × List SupEvent :=
      if w.is_db_connected then
        ({ w with is_db_connected := false,
                  emitters := ⟨w.emitters.connection_status.emit false⟩ },
         { db with mgr := db.mgr.clear },
         [.clearCall, .emitStatus false])
      else
        (w, db, [])
    let w1 := step1.1
    let db1 := step1.2.1
    let tr1 := step1.2.2
    let k2 := (tc.disconnect db1.client).2
    match tc.connect k2 with
    | (.error e, k3) =>
      (.error (.transport e), w1, { db1 with client := k3 },
       tr1 ++ [.disconnectCall, .connectCall])
    | (.ok _, k3) =>
      if tc.connected k3 then
        (.ok (),
         { w1 with is_db_connected := true,
                   emitters := ⟨w1.emitters.connection_status.emit true⟩ },
         { db1 with client := k3 },
         tr1 ++ [.disconnectCall, .connectCall, .emitStatus true])
      else
        (.ok (), w1, { db1 with client := k3 },
         tr1 ++ [.disconnectCall, .connectCall])
  else
    let fetched := tc.get_notifications db.client
    match fetched.1 with
    | .error e =>
      (.error (.transport e), w, { client := fetched.2, mgr := db.mgr }, [.dispatchCall])
    | .ok ns =>
      let r := _NotificationManager.dispatchList ns db.mgr
      (r.1, w, { client := fetched.2, mgr := r.2 }, [.dispatchCall])

end DatabaseWorker

/-- An abstract scheduler worker (trait WorkerTrait, framework/workers/
common.rs) with private state of type sigma: do_work may fail, update the
private state and read or write the shared quit flag; process_events may fail
and update the private state. -/
structure WorkerTrait (σ : Type) where
  st : σ
  do_work : σ → Bool → Except Error Unit × σ × Bool
  process_events : σ → Except Error Unit × σ

namespace Application

/-- Application process_events (framework/application.rs): run process_events
on every worker in order; individual failures are logged and discarded. -/
def procAll {σ : Type} (ws : List (WorkerTrait σ)) : List (WorkerTrait σ) :=
  ws.map (fun w => { w with st := (w.process_events w.st).2 })

/-- The inner for loop of Application do_work, from index i with n workers
still to go: tick worker i discarding its error, then run process_events on
all workers, then continue.  The trace records the indices ticked, in order. -/
def passAux {σ : Type} (ws : List (WorkerTrait σ)) (quit : Bool) (i : Nat) :
    Nat → List (WorkerTrait σ) × Bool × List Nat
  | 0 => (ws, quit, [])
  | n + 1 =>
    match ws.get? i with
    | none => (ws, quit, [])
    | some w =>
      let r := w.do_work w.st quit
      let ws2 := procAll (ws.set i { w with st := r.2.1 })
      let rest := passAux ws2 r.2.2 (i + 1) n
      (rest.1, rest.2.1, i :: rest.2.2)

/-- One full pass of the scheduler loop body over the worker list. -/
def pass {σ : Type} (ws : List (WorkerTrait σ)) (quit : Bool) :
    List (WorkerTrait σ) × Bool × List Nat :=
  passAux ws quit 0 ws.length

/-- The do-while loop of Application do_work, run for at most fuel
iterations: execute one full pass, then exit exactly when the shared quit
flag reads true (the flag is consulted only after a complete pass).  Sleeping
is not modelled.  Returns the workers, the final flag and one tick trace per
executed pass. -/
def do_work {σ : Type} (ws : List (WorkerTrait σ)) (quit : Bool) :
    Nat → List (WorkerTrait σ) × Bool × List (List Nat)
  | 0 => (ws, quit, [])
  | fuel + 1 =>
    let p := pass ws quit
    if p.2.1 then
      (p.1, p.2.1, [p.2.2])
    else
      let rest := do_work p.1 p.2.1 fuel
      (rest.1, rest.2.1, p.2.2 :: rest.2.2)

end Application

section MapLemmas

variable {α β : Type} [DecidableEq α]

theorem mapLookup_isSome_iff (m : List (α × β)) (k : α) :
    (mapLookup m k).isSome = true ↔ k ∈ keysOf m := by
  induction m with
  | nil => simp [mapLookup, keysOf]
  | cons p rest ih =>
    by_cases h : p.1 = k
    · simp [mapLookup, keysOf, h]
    · have h2 : ¬(k = p.1) := fun hh => h hh.symm
      simp [mapLookup, keysOf, h, h2, ih]

theorem mapLookup_insert_self (m : List (α × β)) (k : α) (v : β) :
    mapLookup (mapInsert m k v) k = some v := by
  induction m with
  | nil => simp [mapInsert, mapLookup]
  | cons p rest ih =>
    by_cases h : p.1 = k
    · simp [mapInsert, h, mapLookup]
    · simp [mapInsert, h, mapLookup, ih]

theorem mapLookup_insert_ne (m : List (α × β)) (k k' : α) (v : β) (h : k' ≠ k) :
    mapLookup (mapInsert m k v) k' = mapLookup m k' := by
  have hkk : ¬(k = k') := fun hh => h hh.symm
  induction m with
  | nil => simp [mapInsert, mapLookup, hkk]
  | cons p rest ih =>
    by_cases hp : p.1 = k
    · simp [mapInsert, hp, mapLookup, hkk]
    · simp [mapInsert, hp, mapLookup, ih]

theorem mem_keys_insert (m : List (α × β)) (k k' : α) (v : β) :
    k' ∈ keysOf (mapInsert m k v) ↔ k' = k ∨ k' ∈ keysOf m := by
  induction m with
  | nil => simp [mapInsert, keysOf]
  | cons p rest ih =>
    by_cases h : p.1 = k
    · subst h
      simp [mapInsert, keysOf]
    · simp [mapInsert, h, keysOf] at ih ⊢
      rw [ih]
      tauto

theorem nodup_keys_insert (m : List (α × β)) (k : α) (v : β)
    (hm : (keysOf m).Nodup) : (keysOf (mapInsert m k v)).Nodup := by
  induction m with
  | nil => simp [mapInsert, keysOf]
  | cons p rest ih =>
    simp [keysOf] at hm
    by_cases h : p.1 = k
    · subst h
      simpa [mapInsert, keysOf] using hm
    · simp [mapInsert, h, keysOf]
      refine ⟨?_, ?_⟩
      · intro b hb
        have hk2 : p.1 ∈ keysOf (mapInsert rest k v) := by
          simp [keysOf]
          exact ⟨b, hb⟩
        rcases (mem_keys_insert rest k p.1 v).mp hk2 with h1 | h1
        · exact h h1
        · have h3 : p.1 ∉ keysOf rest := by simpa [keysOf] using hm.1
          exact h3 h1
      · simpa [keysOf] using ih hm.2

theorem mem_of_mem_insert (m : List (α × β)) (k : α) (v : β) (p : α × β)
    (hp : p ∈ mapInsert m k v) : p = (k, v) ∨ p ∈ m := by
  induction m with
  | nil => simp [mapInsert] at hp; exact Or.inl hp
  | cons q rest ih =>
    by_cases h : q.1 = k
    · simp [mapInsert, h] at hp
      rcases hp with hp | hp
      · exact Or.inl hp
      · exact Or.inr (List.mem_cons_of_mem _ hp)
    · simp [mapInsert, h] at hp
      rcases hp with hp | hp
      · subst hp
        exact Or.inr (List.mem_cons_self _ _)
      · rcases ih hp with h1 | h1
        · exact Or.inl h1
        · exact Or.inr (List.mem_cons_of_mem _ h1)

theorem mapLookup_eq_some_mem (m : List (α × β)) (k : α) (v : β)
    (h : mapLookup m k = some v) : (k, v) ∈ m := by
  induction m with
  | nil => simp [mapLookup] at h
  | cons p rest ih =>
    obtain ⟨a, b⟩ := p
    by_cases hp : a = k
    · simp [mapLookup, hp] at h
      subst hp
      subst h
      exact List.mem_cons_self _ _
    · simp [mapLookup, hp] at h
      exact List.mem_cons_of_mem _ (ih h)

theorem mem_keys_of_lookup (m : List (α × β)) (k : α) (v : β)
    (h : mapLookup m k = some v) : k ∈ keysOf m := by
  rw [← mapLookup_isSome_iff, h]
  rfl

theorem mapLookup_erase_self (m : List (α × β)) (k : α) :
    mapLookup (mapErase m k) k = none := by
  induction m with
  | nil => simp [mapErase, mapLookup]
  | cons p rest ih =>
    by_cases h : p.1 = k
    · simpa [mapErase, h] using ih
    · simpa [mapErase, h, mapLookup] using ih

theorem mapLookup_erase_ne (m : List (α × β)) (k k' : α) (h : k' ≠ k) :
    mapLookup (mapErase m k) k' = mapLookup m k' := by
  induction m with
  | nil => simp [mapErase]
  | cons p rest ih =>
    by_cases hp : p.1 = k
    · have hkk : ¬(k = k') := fun hh => h hh.symm
      simp [mapErase, hp, mapLookup, hkk, ih]
    · by_cases hp' : p.1 = k'
      · simp [mapErase, hp, h, mapLookup, hp']
      · simp [mapErase, hp, mapLookup, hp', ih]

theorem mem_keys_erase (m : List (α × β)) (k k' : α) :
    k' ∈ keysOf (mapErase m k) ↔ k' ∈ keysOf m ∧ k' ≠ k := by
  induction m with
  | nil => simp [mapErase, keysOf]
  | cons p rest ih =>
    by_cases h : p.1 = k
    · subst h
      simp [mapErase, keysOf] at ih ⊢
      rw [ih]
      constructor
      · rintro ⟨h1, h2⟩
        exact ⟨Or.inr h1, h2⟩
      · rintro ⟨h1 | h1, h2⟩
        · exact absurd h1 h2
        · exact ⟨h1, h2⟩
    · simp [mapErase, h, keysOf] at ih ⊢
      rw [ih]
      constructor
      · rintro (h1 | ⟨h1, h2⟩)
        · exact ⟨Or.inl h1, fun hh => h (by rw [← h1, hh])⟩
        · exact ⟨Or.inr h1, h2⟩
      · rintro ⟨h1 | h1, h2⟩
        · exact Or.inl h1
        · exact Or.inr ⟨h1, h2⟩

theorem nodup_keys_erase (m : List (α × β)) (k : α)
    (hm : (keysOf m).Nodup) : (keysOf (mapErase m k)).Nodup := by
  induction m with
  | nil => simp [mapErase, keysOf]
  | cons p rest ih =>
    simp [keysOf] at hm
    by_cases h : p.1 = k
    · simpa [mapErase, h] using ih hm.2
    · simp [mapErase, h, keysOf]
      refine ⟨?_, ?_⟩
      · intro b hb
        have hk2 : p.1 ∈ keysOf (mapErase rest k) := by
          simp [keysOf]
          exact ⟨b, hb⟩
        have h2 := (mem_keys_erase rest k p.1).mp hk2
        have h3 : p.1 ∉ keysOf rest := by simpa [keysOf] using hm.1
        exact h3 h2.1
      · simpa [keysOf] using ih hm.2

theorem mem_of_mem_erase (m : List (α × β)) (k : α) (p : α × β)
    (hp : p ∈ mapErase m k) : p ∈ m ∧ p.1 ≠ k := by
  induction m with
  | nil => simp [mapErase] at hp
  | cons q rest ih =>
    by_cases h : q.1 = k
    · have he : mapErase (q :: rest) k = mapErase rest k := by simp [mapErase, h]
      rw [he] at hp
      exact ⟨List.mem_cons_of_mem _ (ih hp).1, (ih hp).2⟩
    · have he : mapErase (q :: rest) k = q :: mapErase rest k := by simp [mapErase, h]
      rw [he] at hp
      rcases List.mem_cons.mp hp with hp2 | hp2
      · subst hp2
        exact ⟨List.mem_cons_self _ _, h⟩
      · exact ⟨List.mem_cons_of_mem _ (ih hp2).1, (ih hp2).2⟩

theorem mapLookup_filter (m : List (α × β)) (P : α × β → Bool) (k : α) (v : β)
    (h : mapLookup m k = some v) (hP : P (k, v) = true) :
    mapLookup (m.filter P) k = some v := by
  induction m with
  | nil => simp [mapLookup] at h
  | cons p rest ih =>
    obtain ⟨a, b⟩ := p
    by_cases hp : a = k
    · simp [mapLookup, hp] at h
      subst hp
      subst h
      simp [List.filter_cons, hP, mapLookup]
    · simp [mapLookup, hp] at h
      rw [List.filter_cons]
      by_cases hPp : P (a, b) = true
      · simp [hPp, mapLookup, hp, ih h]
      · simp [hPp, ih h]

theorem mem_setInsert (s : List α) (a b : α) :
    b ∈ setInsert s a ↔ b = a ∨ b ∈ s := by
  by_cases h : a ∈ s
  · simp [setInsert, h]
    intro hb
    subst hb
    exact h
  · simp [setInsert, h]

theorem nodup_setInsert (s : List α) (a : α) (hs : s.Nodup) :
    (setInsert s a).Nodup := by
  by_cases h : a ∈ s
  · simpa [setInsert, h] using hs
  · simp [setInsert, h, hs]

end MapLemmas

theorem mapInsert_mapInsert {α β : Type} [DecidableEq α] (m : List (α × β)) (k : α)
    (v v2 : β) : mapInsert (mapInsert m k v) k v2 = mapInsert m k v2 := by
  induction m with
  | nil => simp [mapInsert]
  | cons p rest ih =>
    by_cases h : p.1 = k
    · simp [mapInsert, h]
    · simp [mapInsert, h, ih]

theorem mapInsert_ne_nil {α β : Type} [DecidableEq α] (m : List (α × β)) (k : α) (v : β) :
    mapInsert m k v ≠ [] := by
  cases m with
  | nil => simp [mapInsert]
  | cons p rest =>
    by_cases h : p.1 = k
    · simp [mapInsert, h]
    · simp [mapInsert, h]

theorem emitList_lookup {T : Type} (l : List (Nat × Channel T)) (x : T) (id : Nat)
    (c : Channel T) (hc : mapLookup l id = some c) (halive : c.alive = true) :
    mapLookup (l.filterMap (fun p => (Channel.send p.2 x).map (fun ch => (p.1, ch)))) id
      = some ⟨true, c.buffer ++ [x]⟩ := by
  induction l with
  | nil => simp [mapLookup] at hc
  | cons p rest ih =>
    obtain ⟨i, ch⟩ := p
    by_cases hp : i = id
    · subst hp
      simp [mapLookup] at hc
      subst hc
      simp [List.filterMap_cons, Channel.send, halive, mapLookup]
    · simp [mapLookup, hp] at hc
      cases hsend : Channel.send ch x with
      | none =>
        simp [List.filterMap_cons, hsend]
        exact ih hc
      | some ch2 =>
        simp [List.filterMap_cons, hsend, mapLookup, hp]
        exact ih hc

/-- Emitting to an emitter whose channels are all alive delivers to every
channel and prunes none. -/
theorem emitList_all_alive {T : Type} (l : List (Nat × Channel T)) (x : T)
    (h : ∀ p ∈ l, (p.2).alive = true) :
    l.filterMap (fun p => (Channel.send p.2 x).map (fun ch => (p.1, ch)))
      = l.map (fun p => (p.1, ⟨true, p.2.buffer ++ [x]⟩)) := by
  induction l with
  | nil => simp
  | cons p rest ih =>
    have hp := h p (List.mem_cons_self _ _)
    have hrest := ih (fun q hq => h q (List.mem_cons_of_mem _ hq))
    have hsend : Option.map (fun ch => (p.1, ch)) (Channel.send p.2 x)
        = some (p.1, (⟨true, p.2.buffer ++ [x]⟩ : Channel T)) := by
      simp [Channel.send, hp]
    simp only [List.filterMap_cons, hsend, List.map_cons, hrest]

theorem keysOf_map_val {α β γ : Type} (l : List (α × β)) (f : α × β → γ) :
    keysOf (l.map (fun p => (p.1, f p))) = keysOf l := by
  induction l with
  | nil => simp [keysOf]
  | cons p rest ih => simp [keysOf]

namespace _NotificationManager

/-- Dispatching a batch whose every notification finds its token delivers, to
every alive channel registered for a token t, exactly the batch elements that
carry t, appended in order to the channel buffer. -/
theorem dispatchList_buffer (ns : List DatabaseNotification) (s s2 : _NotificationManager)
    (t : NotificationToken) (em : Emitter DatabaseNotification) (id : Nat)
    (c : Channel DatabaseNotification)
    (hem : mapLookup s.token_to_callback_list t = some em)
    (hc : mapLookup em.senders id = some c) (halive : c.alive = true)
    (hdisp : dispatchList ns s = (.ok (), s2)) :
    ∃ em2 c2, mapLookup s2.token_to_callback_list t = some em2 ∧
      mapLookup em2.senders id = some c2 ∧ c2.alive = true ∧
      c2.buffer = c.buffer ++ ns.filter (fun n => n.token == t) := by
  induction ns generalizing s em c with
  | nil =>
    simp [dispatchList] at hdisp
    subst hdisp
    exact ⟨em, c, hem, hc, halive, by simp⟩
  | cons n rest ih =>
    cases hlk : mapLookup s.token_to_callback_list n.token with
    | none => simp [dispatchList, hlk] at hdisp
    | some emN =>
      simp only [dispatchList, hlk] at hdisp
      by_cases hts : n.token = t
      · subst hts
        rw [hem] at hlk
        injection hlk with hlk
        subst hlk
        have hlk2 : mapLookup
            (mapInsert s.token_to_callback_list n.token (em.emit n)) n.token
              = some (em.emit n) := mapLookup_insert_self _ _ _
        have hc2 : mapLookup (em.emit n).senders id = some ⟨true, c.buffer ++ [n]⟩ :=
          emitList_lookup em.senders n id c hc halive
        obtain ⟨em2, c2, h1, h2, h3, h4⟩ := ih _ _ _ hlk2 hc2 rfl hdisp
        refine ⟨em2, c2, h1, h2, h3, ?_⟩
        simp [h4, List.filter_cons]
      · have hts2 : t ≠ n.token := fun hh => hts hh.symm
        have hlk2 : mapLookup
            (mapInsert s.token_to_callback_list n.token (emN.emit n)) t = some em := by
          rw [mapLookup_insert_ne _ _ _ _ hts2]
          exact hem
        obtain ⟨em2, c2, h1, h2, h3, h4⟩ := ih _ _ _ hlk2 hc halive hdisp
        refine ⟨em2, c2, h1, h2, h3, ?_⟩
        have : (n.token == t) = false := by
          simp [hts]
        simp [h4, List.filter_cons, this]

/-- Dispatching a batch aborts at the first notification whose token is
unknown: the result is the notification error, and the state is exactly the
state after dispatching the prefix before the offender. -/
theorem dispatchList_append_unknown (pre post : List DatabaseNotification)
    (n : DatabaseNotification) (s : _NotificationManager)
    (hpre : ∀ m ∈ pre, (mapLookup s.token_to_callback_list m.token).isSome = true)
    (hn : mapLookup s.token_to_callback_list n.token = none) :
    dispatchList (pre ++ n :: post) s
      = (.error (.notification unknownTokenMsg), (dispatchList pre s).2) := by
  induction pre generalizing s with
  | nil => simp [dispatchList, hn]
  | cons m rest ih =>
    have hm := hpre m (List.mem_cons_self _ _)
    obtain ⟨em, hem⟩ := Option.isSome_iff_exists.mp hm
    have hmn : n.token ≠ m.token := by
      intro hh
      rw [hh, hem] at hn
      exact Option.noConfusion hn
    simp only [List.cons_append, dispatchList, hem]
    apply ih
    · intro q hq
      by_cases hq2 : q.token = m.token
      · simp [hq2, mapLookup_insert_self]
      · rw [mapLookup_insert_ne _ _ _ _ hq2]
        exact hpre q (List.mem_cons_of_mem _ hq)
    · rw [mapLookup_insert_ne _ _ _ _ hmn]
      exact hn

end _NotificationManager

namespace _NotificationManager

/-- Evaluation of register on an already registered config with consistent
maps: no transport call, a fresh channel under the recorded token, receiver
id equal to the current counter. -/
theorem register_eq_registered (client : Client) (config : NotificationConfig)
    (s : _NotificationManager) (token : NotificationToken)
    (em : Emitter DatabaseNotification)
    (hreg : config ∈ s.registered_config)
    (hc2t : mapLookup s.config_to_token config = some token)
    (ht2c : mapLookup s.token_to_callback_list token = some em) :
    register client config s =
      (.ok s.slot_ctr,
       { s with
         token_to_callback_list := (mapInsert s.token_to_callback_list token
           (Emitter.mk (mapInsert em.senders s.slot_ctr (Channel.mk true [])))),
         slot_ctr := s.slot_ctr + 1 },
       []) := by
  simp [register, hreg, hc2t, ht2c, Emitter.new_receiver, Emitter.connect]

/-- Evaluation of register on a fresh config when the transport accepts:
one register_notification call, all three maps extended, one new channel. -/
theorem register_eq_fresh (client : Client) (config : NotificationConfig)
    (s : _NotificationManager) (token : NotificationToken)
    (hreg : config ∉ s.registered_config)
    (hcl : client.register_notification config = .ok token) :
    register client config s =
      (.ok s.slot_ctr,
       { registered_config := setInsert s.registered_config config,
         config_to_token := mapInsert s.config_to_token config token,
         token_to_callback_list := (mapInsert s.token_to_callback_list token
           (Emitter.mk [(s.slot_ctr, Channel.mk true [])])),
         slot_ctr := s.slot_ctr + 1 },
       [.registerNotification config]) := by
  simp [register, hreg, hcl, mapLookup_insert_self, Emitter.new_receiver, Emitter.connect,
    Emitter.new, mapInsert_mapInsert, mapInsert]

/-- Evaluation of register on a fresh config when the transport fails: the
error propagates and the state is unchanged. -/
theorem register_eq_transport_error (client : Client) (config : NotificationConfig)
    (s : _NotificationManager) (e : String)
    (hreg : config ∉ s.registered_config)
    (hcl : client.register_notification config = .error e) :
    register client config s
      = (.error (.transport e), s, [.registerNotification config]) := by
  simp [register, hreg, hcl]

/-- Evaluation of unregister on an unknown token: not-found error, no
transport call, no state change. -/
theorem unregister_eq_unknown (client : Client) (token : NotificationToken)
    (s : _NotificationManager)
    (hk : mapLookup s.token_to_callback_list token = none) :
    unregister client token s = (.error (.notification tokenNotFoundMsg), s, []) := by
  simp [unregister, hk]

/-- Evaluation of unregister on a known token when the transport fails: the
error propagates after the single transport call and no state changes. -/
theorem unregister_eq_transport_error (client : Client) (token : NotificationToken)
    (s : _NotificationManager) (em : Emitter DatabaseNotification) (e : String)
    (hk : mapLookup s.token_to_callback_list token = some em)
    (hu : client.unregister_notification token = .error e) :
    unregister client token s
      = (.error (.transport e), s, [.unregisterNotification token]) := by
  have hk2 : (mapLookup s.token_to_callback_list token).isSome = true := by simp [hk]
  simp [unregister, hk2, hu]

/-- Evaluation of unregister on a known token when the transport accepts:
one unregister_notification call, the token and all derived entries dropped. -/
theorem unregister_eq_known (client : Client) (token : NotificationToken)
    (s : _NotificationManager) (em : Emitter DatabaseNotification)
    (hk : mapLookup s.token_to_callback_list token = some em)
    (hu : client.unregister_notification token = .ok ()) :
    unregister client token s =
      (.ok (),
       { s with
         token_to_callback_list := mapErase s.token_to_callback_list token,
         config_to_token := ((s.config_to_token).filter (fun p => decide (p.2 ≠ token))),
         registered_config := ((s.registered_config).filter
           (fun c => (mapLookup ((s.config_to_token).filter
             (fun p => decide (p.2 ≠ token))) c).isSome)) },
       [.unregisterNotification token]) := by
  have hk2 : (mapLookup s.token_to_callback_list token).isSome = true := by simp [hk]
  simp [unregister, hk2, hu]

end _NotificationManager

namespace _NotificationManager

/-- Strengthened registry invariant: the set and the two maps have set
semantics (no duplicate keys), registered configs are exactly the keys of
config_to_token, every token value of config_to_token is a key of
token_to_callback_list, and every registered emitter has a nonempty sender
list whose channels are all alive with slot ids below the counter. -/
def StateInv (s : _NotificationManager) : Prop :=
  s.registered_config.Nodup ∧
  (keysOf s.config_to_token).Nodup ∧
  (keysOf s.token_to_callback_list).Nodup ∧
  (∀ c, c ∈ s.registered_config ↔ c ∈ keysOf s.config_to_token) ∧
  (∀ p ∈ s.config_to_token, p.2 ∈ keysOf s.token_to_callback_list) ∧
  (∀ p ∈ s.token_to_callback_list, p.2.senders ≠ [] ∧
    ∀ q ∈ p.2.senders, q.2.alive = true ∧ q.1 < s.slot_ctr)

/-- The registry states reachable by any sequence of registry operations
(subscribe, unsubscribe, clear, dispatch) from the freshly constructed
manager, with arbitrary transport behaviour. -/
inductive Reachable : _NotificationManager → Prop where
  | base : Reachable new
  | register (client : Client) (config : NotificationConfig) (s : _NotificationManager) :
      Reachable s → Reachable (register client config s).2.1
  | unregister (client : Client) (token : NotificationToken) (s : _NotificationManager) :
      Reachable s → Reachable (unregister client token s).2.1
  | clear (s : _NotificationManager) : Reachable s → Reachable s.clear
  | dispatch (client : Client) (s : _NotificationManager) :
      Reachable s → Reachable (process_notifications client s).2.1

theorem stateInv_new : StateInv new := by
  refine ⟨?_, ?_, ?_, ?_, ?_, ?_⟩ <;> simp [new, keysOf]

theorem stateInv_clear (s : _NotificationManager) (_h : StateInv s) : StateInv s.clear := by
  refine ⟨?_, ?_, ?_, ?_, ?_, ?_⟩ <;> simp [clear, keysOf]

theorem stateInv_dispatchList (ns : List DatabaseNotification) (s : _NotificationManager)
    (h : StateInv s) : StateInv (dispatchList ns s).2 := by
  induction ns generalizing s with
  | nil => simpa [dispatchList] using h
  | cons n rest ih =>
    cases hlk : mapLookup s.token_to_callback_list n.token with
    | none => simpa [dispatchList, hlk] using h
    | some em =>
      simp only [dispatchList, hlk]
      apply ih
      obtain ⟨h1, h2, h3, h4, h5, h6⟩ := h
      have hmem : (n.token, em) ∈ s.token_to_callback_list := mapLookup_eq_some_mem _ _ _ hlk
      have hem := h6 _ hmem
      have hemit : (em.emit n).senders
          = em.senders.map (fun p => (p.1, ⟨true, p.2.buffer ++ [n]⟩)) :=
        emitList_all_alive em.senders n (fun q hq => (hem.2 q hq).1)
      refine ⟨h1, h2, nodup_keys_insert _ _ _ h3, h4, ?_, ?_⟩
      · intro p hp
        rw [mem_keys_insert]
        exact Or.inr (h5 p hp)
      · intro p hp
        rcases mem_of_mem_insert _ _ _ _ hp with hp1 | hp1
        · subst hp1
          refine ⟨?_, ?_⟩
          · rw [hemit]
            intro hmap
            exact hem.1 (List.map_eq_nil_iff.mp hmap)
          · intro q hq
            rw [hemit] at hq
            obtain ⟨q0, hq0, hq0e⟩ := List.mem_map.mp hq
            rw [← hq0e]
            exact ⟨rfl, (hem.2 q0 hq0).2⟩
        · exact h6 p hp1

theorem stateInv_process (client : Client) (s : _NotificationManager) (h : StateInv s) :
    StateInv (process_notifications client s).2.1 := by
  cases hg : client.get_notifications with
  | error e => simpa [process_notifications, hg] using h
  | ok ns => simpa [process_notifications, hg] using stateInv_dispatchList ns s h

theorem stateInv_unregister (client : Client) (token : NotificationToken)
    (s : _NotificationManager) (h : StateInv s) : StateInv (unregister client token s).2.1 := by
  by_cases hk : (mapLookup s.token_to_callback_list token).isSome = true
  · cases hu : client.unregister_notification token with
    | error e => simpa [unregister, hk, hu] using h
    | ok u =>
      obtain ⟨h1, h2, h3, h4, h5, h6⟩ := h
      simp only [unregister, hk, if_pos, hu]
      refine ⟨List.Nodup.filter _ h1, ?_, nodup_keys_erase _ _ h3, ?_, ?_, ?_⟩
      · exact List.Nodup.sublist ((List.filter_sublist _).map _) h2
      · intro c
        constructor
        · intro hc
          have hc2 := List.mem_filter.mp hc
          exact (mapLookup_isSome_iff _ _).mp hc2.2
        · intro hc
          have hsome := (mapLookup_isSome_iff _ _).mpr hc
          have hsub : keysOf ((s.config_to_token).filter (fun p => decide (p.2 ≠ token)))
              |>.Sublist (keysOf s.config_to_token) := (List.filter_sublist _).map _
          have hc3 : c ∈ keysOf s.config_to_token := hsub.mem hc
          exact List.mem_filter.mpr ⟨(h4 c).mpr hc3, hsome⟩
      · intro p hp
        have hp2 := List.mem_filter.mp hp
        have hne : p.2 ≠ token := by simpa using hp2.2
        exact (mem_keys_erase _ _ _).mpr ⟨h5 p hp2.1, hne⟩
      · intro p hp
        exact h6 p (mem_of_mem_erase _ _ _ hp).1
  · simpa [unregister, hk] using ⟨h.1, h.2.1, h.2.2.1, h.2.2.2.1, h.2.2.2.2.1, h.2.2.2.2.2⟩

theorem stateInv_register (client : Client) (config : NotificationConfig)
    (s : _NotificationManager) (h : StateInv s) : StateInv (register client config s).2.1 := by
  obtain ⟨h1, h2, h3, h4, h5, h6⟩ := h
  by_cases hreg : config ∈ s.registered_config
  · cases hc2t : mapLookup s.config_to_token config with
    | none =>
      simpa [register, hreg, hc2t] using ⟨h1, h2, h3, h4, h5, h6⟩
    | some token =>
      cases ht2c : mapLookup s.token_to_callback_list token with
      | none =>
        simpa [register, hreg, hc2t, ht2c] using ⟨h1, h2, h3, h4, h5, h6⟩
      | some em =>
        rw [register_eq_registered client config s token em hreg hc2t ht2c]
        have hmem : (token, em) ∈ s.token_to_callback_list := mapLookup_eq_some_mem _ _ _ ht2c
        have hem := h6 _ hmem
        refine ⟨h1, h2, nodup_keys_insert _ _ _ h3, h4, ?_, ?_⟩
        · intro p hp
          rw [mem_keys_insert]
          exact Or.inr (h5 p hp)
        · intro p hp
          rcases mem_of_mem_insert _ _ _ _ hp with hp1 | hp1
          · subst hp1
            refine ⟨mapInsert_ne_nil _ _ _, ?_⟩
            intro q hq
            rcases mem_of_mem_insert _ _ _ _ hq with hq1 | hq1
            · subst hq1
              exact ⟨rfl, Nat.lt_succ_self _⟩
            · exact ⟨(hem.2 q hq1).1, Nat.lt_trans (hem.2 q hq1).2 (Nat.lt_succ_self _)⟩
          · have := h6 p hp1
            exact ⟨this.1, fun q hq =>
              ⟨(this.2 q hq).1, Nat.lt_trans (this.2 q hq).2 (Nat.lt_succ_self _)⟩⟩
  · cases hcl : client.register_notification config with
    | error e =>
      simpa [register, hreg, hcl] using ⟨h1, h2, h3, h4, h5, h6⟩
    | ok token =>
      rw [register_eq_fresh client config s token hreg hcl]
      refine ⟨nodup_setInsert _ _ h1, nodup_keys_insert _ _ _ h2,
        nodup_keys_insert _ _ _ h3, ?_, ?_, ?_⟩
      · intro c
        rw [mem_setInsert, mem_keys_insert]
        constructor
        · rintro (hc | hc)
          · exact Or.inl hc
          · exact Or.inr ((h4 c).mp hc)
        · rintro (hc | hc)
          · exact Or.inl hc
          · exact Or.inr ((h4 c).mpr hc)
      · intro p hp
        rcases mem_of_mem_insert _ _ _ _ hp with hp1 | hp1
        · subst hp1
          rw [mem_keys_insert]
          exact Or.inl rfl
        · rw [mem_keys_insert]
          exact Or.inr (h5 p hp1)
      · intro p hp
        rcases mem_of_mem_insert _ _ _ _ hp with hp1 | hp1
        · subst hp1
          refine ⟨by simp [mapInsert], ?_⟩
          intro q hq
          simp [mapInsert] at hq
          subst hq
          exact ⟨rfl, Nat.lt_succ_self _⟩
        · have := h6 p hp1
          exact ⟨this.1, fun q hq =>
            ⟨(this.2 q hq).1, Nat.lt_trans (this.2 q hq).2 (Nat.lt_succ_self _)⟩⟩

/-- Every reachable registry state satisfies the strengthened invariant. -/
theorem reachable_stateInv (s : _NotificationManager) (h : Reachable s) : StateInv s := by
  induction h with
  | base => exact stateInv_new
  | register client config s _ ih => exact stateInv_register client config s ih
  | unregister client token s _ ih => exact stateInv_unregister client token s ih
  | clear s _ ih => exact stateInv_clear s ih
  | dispatch client s _ ih => exact stateInv_process client s ih

end _NotificationManager

namespace Application

theorem procAll_length {σ : Type} (ws : List (WorkerTrait σ)) :
    (procAll ws).length = ws.length := by
  simp [procAll]

theorem passAux_trace {σ : Type} (n i : Nat) (ws : List (WorkerTrait σ)) (quit : Bool)
    (h : ws.length = i + n) :
    (passAux ws quit i n).2.2 = List.range' i n := by
  induction n generalizing ws quit i with
  | zero => simp [passAux]
  | succ n ih =>
    have hi : i < ws.length := by omega
    obtain ⟨w, hw⟩ : ∃ w, ws[i]? = some w := ⟨_, List.getElem?_eq_getElem hi⟩
    have hw2 : ws.get? i = some w := by rw [List.get?_eq_getElem?]; exact hw
    rw [List.range'_succ]
    simp only [passAux, hw2]
    congr 1
    apply ih
    simp [procAll]
    omega

theorem passAux_length {σ : Type} (n i : Nat) (ws : List (WorkerTrait σ)) (quit : Bool) :
    (passAux ws quit i n).1.length = ws.length := by
  induction n generalizing ws quit i with
  | zero => simp [passAux]
  | succ n ih =>
    cases hw : ws[i]? with
    | none => simp [passAux, hw]
    | some w =>
      have hw2 : ws.get? i = some w := by rw [List.get?_eq_getElem?]; exact hw
      simp only [passAux, hw2]
      rw [ih]
      simp [procAll]

/-- One pass of the scheduler loop ticks every worker, in registration order,
whatever results (including errors) the individual ticks return. -/
theorem pass_trace {σ : Type} (ws : List (WorkerTrait σ)) (quit : Bool) :
    (pass ws quit).2.2 = List.range ws.length := by
  rw [List.range_eq_range']
  exact passAux_trace ws.length 0 ws quit (by omega)

theorem pass_length {σ : Type} (ws : List (WorkerTrait σ)) (quit : Bool) :
    (pass ws quit).1.length = ws.length :=
  passAux_length ws.length 0 ws quit

theorem passAux_quit {σ : Type} (n i : Nat) (ws : List (WorkerTrait σ)) (quit : Bool)
    (hq : ∀ w ∈ ws, ∀ s q, (w.do_work s q).2.2 = q) :
    (passAux ws quit i n).2.1 = quit := by
  induction n generalizing ws quit i with
  | zero => simp [passAux]
  | succ n ih =>
    cases hw : ws[i]? with
    | none => simp [passAux, hw]
    | some w =>
      have hwmem : w ∈ ws := List.getElem?_mem hw
      have hw2 : ws.get? i = some w := by rw [List.get?_eq_getElem?]; exact hw
      simp only [passAux, hw2]
      rw [show (w.do_work w.st quit).2.2 = quit from hq w hwmem _ _]
      apply ih
      intro w2 hw2
      obtain ⟨w3, hw3, hw3e⟩ := List.mem_map.mp hw2
      have hdw : w2.do_work = w3.do_work := by rw [← hw3e]
      rcases List.mem_or_eq_of_mem_set hw3 with h3 | h3
      · rw [hdw]
        exact hq w3 h3
      · rw [hdw, h3]
        exact hq w hwmem

/-- If no worker touches the quit flag, a pass leaves it unchanged. -/
theorem pass_quit {σ : Type} (ws : List (WorkerTrait σ)) (quit : Bool)
    (hq : ∀ w ∈ ws, ∀ s q, (w.do_work s q).2.2 = q) :
    (pass ws quit).2.1 = quit :=
  passAux_quit ws.length 0 ws quit hq

end Application

def sampleField : DatabaseField := ⟨"entity1", "field1"⟩

def sampleNotif (t : String) : DatabaseNotification := ⟨t, sampleField, sampleField, []⟩

def sampleConfig : NotificationConfig := ⟨"entity1", "SystemClock", "field1", true, []⟩

/-- A transport that refuses every call. -/
def errClient : Client :=
  ⟨fun _ => .error "connection refused", fun _ => .error "connection refused",
   .error "connection refused"⟩

/-- A transport that accepts every call, assigning the given token to any
registration and returning the given batch to any poll. -/
def okClient (t : NotificationToken) (ns : List DatabaseNotification) : Client :=
  ⟨fun _ => .ok t, fun _ => .ok (), .ok ns⟩

/-- The registry state after one successful subscription of sampleConfig
under token t0. -/
def oneSubState : _NotificationManager :=
  (_NotificationManager.register (okClient "t0" []) sampleConfig _NotificationManager.new).2.1

/-- C3: if some notification of the polled batch carries a token absent from
the registry, process_notifications surfaces a NotificationError to the
caller, and the final state is exactly the state after dispatching only the
notifications before the first offender: nothing positioned after it is
emitted. -/
theorem dispatch_surfaces_unknown_token (client : Client) (s : _NotificationManager)
    (pre post : List DatabaseNotification) (n : DatabaseNotification)
    (hget : client.get_notifications = .ok (pre ++ n :: post))
    (hpre : ∀ m ∈ pre, (mapLookup s.token_to_callback_list m.token).isSome = true)
    (hn : mapLookup s.token_to_callback_list n.token = none) :
    (_NotificationManager.process_notifications client s).1
      = .error (.notification unknownTokenMsg) ∧
    (_NotificationManager.process_notifications client s).2.1
      = (_NotificationManager.dispatchList pre s).2 := by
  have hd := _NotificationManager.dispatchList_append_unknown pre post n s hpre hn
  constructor
  · simp [_NotificationManager.process_notifications, hget, hd]
  · simp [_NotificationManager.process_notifications, hget, hd]

theorem dispatch_surfaces_unknown_token_witness :
    (_NotificationManager.process_notifications (okClient "t0" [sampleNotif "tX"]) oneSubState).1
      = Except.error (Error.notification unknownTokenMsg) := by
  have h := dispatch_surfaces_unknown_token (okClient "t0" [sampleNotif "tX"]) oneSubState
    [] [] (sampleNotif "tX") rfl (by simp) (by decide)
  exact h.1

/-- C4: a failing subscribe or unsubscribe call leaves the registry state
(all three maps and the counter) exactly as it was: errors are propagated
with no state change. -/
theorem subscribe_unsubscribe_atomic (client : Client) (config : NotificationConfig)
    (token : NotificationToken) (s : _NotificationManager) :
    (∀ e, (_NotificationManager.register client config s).1 = .error e →
       (_NotificationManager.register client config s).2.1 = s) ∧
    (∀ e, (_NotificationManager.unregister client token s).1 = .error e →
       (_NotificationManager.unregister client token s).2.1 = s) := by
  constructor
  · intro e he
    by_cases hreg : config ∈ s.registered_config
    · cases hc2t : mapLookup s.config_to_token config with
      | none => simp [_NotificationManager.register, hreg, hc2t]
      | some t2 =>
        cases ht2c : mapLookup s.token_to_callback_list t2 with
        | none => simp [_NotificationManager.register, hreg, hc2t, ht2c]
        | some em =>
          rw [_NotificationManager.register_eq_registered client config s t2 em
            hreg hc2t ht2c] at he
          simp at he
    · cases hcl : client.register_notification config with
      | error e2 =>
        rw [_NotificationManager.register_eq_transport_error client config s e2 hreg hcl]
      | ok t2 =>
        rw [_NotificationManager.register_eq_fresh client config s t2 hreg hcl] at he
        simp at he
  · intro e he
    cases hk : mapLookup s.token_to_callback_list token with
    | none => rw [_NotificationManager.unregister_eq_unknown client token s hk]
    | some em =>
      cases hu : client.unregister_notification token with
      | error e2 =>
        rw [_NotificationManager.unregister_eq_transport_error client token s em e2 hk hu]
      | ok u =>
        cases u
        rw [_NotificationManager.unregister_eq_known client token s em hk hu] at he
        simp at he

theorem subscribe_unsubscribe_atomic_witness :
    (_NotificationManager.register errClient sampleConfig _NotificationManager.new).2.1
      = _NotificationManager.new ∧
    (_NotificationManager.unregister errClient "t0" _NotificationManager.new).2.1
      = _NotificationManager.new := by
  have h := subscribe_unsubscribe_atomic errClient sampleConfig "t0" _NotificationManager.new
  exact ⟨h.1 (.transport "connection refused") rfl,
         h.2 (.notification tokenNotFoundMsg) rfl⟩

/-- C5: unsubscribe errors with the not-found NotificationError exactly when
the token is absent from token_to_callback_list, making no transport call and
no state change in that case; on a known token it issues exactly the one
unregister_notification transport call and, when the transport accepts,
removes the token entry, every config_to_token entry valued at that token and
those configs from registered_config, while every other token keeps its
emitter and every config mapped to another token keeps its mapping. -/
theorem unsubscribe_spec (client : Client) (token : NotificationToken)
    (s : _NotificationManager) :
    (mapLookup s.token_to_callback_list token = none →
       _NotificationManager.unregister client token s
         = (.error (.notification tokenNotFoundMsg), s, [])) ∧
    ((_NotificationManager.unregister client token s).1
         = .error (.notification tokenNotFoundMsg) →
       mapLookup s.token_to_callback_list token = none) ∧
    (∀ em, mapLookup s.token_to_callback_list token = some em →
       (_NotificationManager.unregister client token s).2.2
         = [.unregisterNotification token] ∧
       (client.unregister_notification token = .ok () →
          (_NotificationManager.unregister client token s).1 = .ok () ∧
          (_NotificationManager.unregister client token s).2.1.token_to_callback_list
            = mapErase s.token_to_callback_list token ∧
          (_NotificationManager.unregister client token s).2.1.config_to_token
            = ((s.config_to_token).filter (fun p => decide (p.2 ≠ token))) ∧
          (_NotificationManager.unregister client token s).2.1.registered_config
            = ((s.registered_config).filter
                (fun c => (mapLookup ((s.config_to_token).filter
                  (fun p => decide (p.2 ≠ token))) c).isSome)) ∧
          (∀ t2, t2 ≠ token →
             mapLookup (_NotificationManager.unregister client token s).2.1.token_to_callback_list t2
               = mapLookup s.token_to_callback_list t2) ∧
          (∀ c t2, mapLookup s.config_to_token c = some t2 → t2 ≠ token →
             mapLookup (_NotificationManager.unregister client token s).2.1.config_to_token c
               = some t2))) := by
  refine ⟨?_, ?_, ?_⟩
  · intro hk
    exact _NotificationManager.unregister_eq_unknown client token s hk
  · intro he
    cases hk : mapLookup s.token_to_callback_list token with
    | none => rfl
    | some em =>
      exfalso
      cases hu : client.unregister_notification token with
      | error e2 =>
        rw [_NotificationManager.unregister_eq_transport_error client token s em e2 hk hu] at he
        simp at he
      | ok u =>
        cases u
        rw [_NotificationManager.unregister_eq_known client token s em hk hu] at he
        simp at he
  · intro em hk
    constructor
    · cases hu : client.unregister_notification token with
      | error e2 =>
        rw [_NotificationManager.unregister_eq_transport_error client token s em e2 hk hu]
      | ok u =>
        cases u
        rw [_NotificationManager.unregister_eq_known client token s em hk hu]
    · intro hu
      rw [_NotificationManager.unregister_eq_known client token s em hk hu]
      refine ⟨rfl, rfl, rfl, rfl, ?_, ?_⟩
      · intro t2 ht2
        exact mapLookup_erase_ne s.token_to_callback_list token t2 ht2
      · intro c t2 hc ht2
        exact mapLookup_filter s.config_to_token _ c t2 hc (by simp [ht2])

theorem unsubscribe_spec_witness :
    (_NotificationManager.unregister (okClient "t0" []) "t0" oneSubState).2.2
      = [TransportCall.unregisterNotification "t0"] ∧
    (_NotificationManager.unregister (okClient "t0" []) "t0" oneSubState).1 = .ok () ∧
    (_NotificationManager.unregister (okClient "t9" []) "t9" oneSubState).2.1 = oneSubState := by
  have h := unsubscribe_spec (okClient "t0" []) "t0" oneSubState
  have h2 := unsubscribe_spec (okClient "t9" []) "t9" oneSubState
  have h3 := h.2.2 ⟨[(0, ⟨true, []⟩)]⟩ (by decide)
  refine ⟨h3.1, (h3.2 rfl).1, ?_⟩
  have h4 := h2.1 (by decide)
  rw [h4]

/-- C1: in any reachable registry state where the config is already
registered (with recorded token t and emitter em), a second subscribe issues
no transport call, succeeds returning the current slot counter as a fresh
receive endpoint (no existing channel of the emitter carries that id),
changes neither registered_config nor config_to_token, attaches one new
channel under the token already recorded for the config, and every
notification for t in any batch subsequently dispatched without error is
delivered to both the pre-existing endpoint and the new one. -/
theorem subscribe_idempotent (client : Client) (config : NotificationConfig)
    (s : _NotificationManager) (t : NotificationToken) (em : Emitter DatabaseNotification)
    (hR : _NotificationManager.Reachable s)
    (hreg : config ∈ s.registered_config)
    (htok : mapLookup s.config_to_token config = some t)
    (hem : mapLookup s.token_to_callback_list t = some em) :
    (_NotificationManager.register client config s).2.2 = [] ∧
    (_NotificationManager.register client config s).1 = .ok s.slot_ctr ∧
    mapLookup em.senders s.slot_ctr = none ∧
    (_NotificationManager.register client config s).2.1.config_to_token
      = s.config_to_token ∧
    (_NotificationManager.register client config s).2.1.registered_config
      = s.registered_config ∧
    mapLookup (_NotificationManager.register client config s).2.1.token_to_callback_list t
      = some (Emitter.mk (mapInsert em.senders s.slot_ctr (Channel.mk true []))) ∧
    (∀ id c, mapLookup em.senders id = some c → c.alive = true →
      ∀ ns s2, _NotificationManager.dispatchList ns
          (_NotificationManager.register client config s).2.1 = (.ok (), s2) →
        ∃ em2 c2 c3, mapLookup s2.token_to_callback_list t = some em2 ∧
          mapLookup em2.senders id = some c2 ∧
          c2.buffer = c.buffer ++ ns.filter (fun n => n.token == t) ∧
          mapLookup em2.senders s.slot_ctr = some c3 ∧
          c3.buffer = ns.filter (fun n => n.token == t)) := by
  have hinv := _NotificationManager.reachable_stateInv s hR
  have hctr : ∀ q ∈ em.senders, q.2.alive = true ∧ q.1 < s.slot_ctr :=
    fun q hq => (hinv.2.2.2.2.2 (t, em) (mapLookup_eq_some_mem _ _ _ hem)).2 q hq
  have heq := _NotificationManager.register_eq_registered client config s t em hreg htok hem
  rw [heq]
  refine ⟨rfl, rfl, ?_, rfl, rfl, mapLookup_insert_self _ _ _, ?_⟩
  · cases hlk : mapLookup em.senders s.slot_ctr with
    | none => rfl
    | some c =>
      exfalso
      exact Nat.lt_irrefl _ ((hctr _ (mapLookup_eq_some_mem _ _ _ hlk)).2)
  · intro id c hid halive ns s2 hdisp
    have hidlt : id < s.slot_ctr := (hctr _ (mapLookup_eq_some_mem _ _ _ hid)).2
    have hidne : id ≠ s.slot_ctr := Nat.ne_of_lt hidlt
    have hlkt : mapLookup (mapInsert s.token_to_callback_list t
          (Emitter.mk (mapInsert em.senders s.slot_ctr (Channel.mk true [])))) t
        = some (Emitter.mk (mapInsert em.senders s.slot_ctr (Channel.mk true []))) :=
      mapLookup_insert_self _ _ _
    have hold : mapLookup (mapInsert em.senders s.slot_ctr (Channel.mk true [])) id
        = some c := by
      rw [mapLookup_insert_ne _ _ _ _ hidne]
      exact hid
    have hnew : mapLookup (mapInsert em.senders s.slot_ctr (Channel.mk true [])) s.slot_ctr
        = some (Channel.mk true []) := mapLookup_insert_self _ _ _
    obtain ⟨em2, c2, ha1, ha2, ha3, ha4⟩ :=
      _NotificationManager.dispatchList_buffer ns _ s2 t _ id c hlkt hold halive hdisp
    obtain ⟨em2b, c3, hb1, hb2, hb3, hb4⟩ :=
      _NotificationManager.dispatchList_buffer ns _ s2 t _ s.slot_ctr
        (Channel.mk true []) hlkt hnew rfl hdisp
    rw [ha1] at hb1
    injection hb1 with hb1
    subst hb1
    refine ⟨em2, c2, c3, ha1, ha2, ha4, hb2, ?_⟩
    simpa using hb4

theorem subscribe_idempotent_witness :
    (_NotificationManager.register (okClient "t1" []) sampleConfig oneSubState).2.2 = [] ∧
    (_NotificationManager.register (okClient "t1" []) sampleConfig oneSubState).1
      = .ok 1 := by
  have hR : _NotificationManager.Reachable oneSubState :=
    _NotificationManager.Reachable.register (okClient "t0" []) sampleConfig
      _NotificationManager.new _NotificationManager.Reachable.base
  have h := subscribe_idempotent (okClient "t1" []) sampleConfig oneSubState "t0"
    (Emitter.mk [(0, Channel.mk true [])]) hR (by decide) (by decide) (by decide)
  exact ⟨h.1, h.2.1⟩

/-- C6: every registry state reachable by any sequence of subscribe,
unsubscribe, clear and dispatch operations from the fresh manager satisfies
the consistency invariant: registered_config coincides with the key set of
config_to_token, every registered config has exactly one config_to_token
entry, every token value of config_to_token is a key of
token_to_callback_list, and a registered token never has an empty listener
list. -/
theorem registry_consistency (s : _NotificationManager)
    (h : _NotificationManager.Reachable s) :
    (∀ c, c ∈ s.registered_config ↔ c ∈ keysOf s.config_to_token) ∧
    (∀ c, c ∈ s.registered_config → (keysOf s.config_to_token).count c = 1) ∧
    (∀ p ∈ s.config_to_token, p.2 ∈ keysOf s.token_to_callback_list) ∧
    (∀ p ∈ s.token_to_callback_list, p.2.senders ≠ []) := by
  obtain ⟨h1, h2, h3, h4, h5, h6⟩ := _NotificationManager.reachable_stateInv s h
  refine ⟨h4, ?_, h5, fun p hp => (h6 p hp).1⟩
  intro c hc
  exact List.count_eq_one_of_mem h2 ((h4 c).mp hc)

theorem registry_consistency_witness :
    sampleConfig ∈ oneSubState.registered_config ∧
    (keysOf oneSubState.config_to_token).count sampleConfig = 1 := by
  have hR : _NotificationManager.Reachable oneSubState :=
    _NotificationManager.Reachable.register (okClient "t0" []) sampleConfig
      _NotificationManager.new _NotificationManager.Reachable.base
  have h := registry_consistency oneSubState hR
  exact ⟨by decide, h.2.1 sampleConfig (by decide)⟩

/-- C7 counterexample: the claim as stated fails.  After clear, a dispatch
whose transport poll returns a nonempty batch does not return without error:
the first notification hits an unknown token (the registry is empty) and a
NotificationError is raised. -/
theorem clear_dispatch_counterexample :
    (_NotificationManager.process_notifications (okClient "t0" [sampleNotif "t0"])
        (_NotificationManager.clear oneSubState)).1
      = Except.error (Error.notification unknownTokenMsg) := rfl

/-- C7 (amended): clear empties all three registry maps and issues no
transport call (it takes no client at all); a dispatch performed after clear
and before any new subscribe never delivers a notification to any endpoint
(the state, hence every buffer, is unchanged); it returns without error when
the transport poll succeeds with an empty batch, and surfaces a
NotificationError whenever the poll succeeds with a nonempty batch. -/
theorem clear_then_dispatch (client : Client) (s : _NotificationManager) :
    (_NotificationManager.clear s).registered_config = [] ∧
    (_NotificationManager.clear s).config_to_token = [] ∧
    (_NotificationManager.clear s).token_to_callback_list = [] ∧
    (∀ ns, client.get_notifications = .ok ns →
       (_NotificationManager.process_notifications client
           (_NotificationManager.clear s)).2.1
         = _NotificationManager.clear s) ∧
    (client.get_notifications = .ok [] →
       (_NotificationManager.process_notifications client
           (_NotificationManager.clear s)).1 = .ok ()) ∧
    (∀ n ns, client.get_notifications = .ok (n :: ns) →
       (_NotificationManager.process_notifications client
           (_NotificationManager.clear s)).1
         = .error (.notification unknownTokenMsg)) := by
  refine ⟨rfl, rfl, rfl, ?_, ?_, ?_⟩
  · intro ns hg
    cases ns with
    | nil => simp [_NotificationManager.process_notifications, hg,
        _NotificationManager.dispatchList]
    | cons n rest =>
      simp [_NotificationManager.process_notifications, hg,
        _NotificationManager.dispatchList, _NotificationManager.clear, mapLookup]
  · intro hg
    simp [_NotificationManager.process_notifications, hg, _NotificationManager.dispatchList]
  · intro n ns hg
    simp [_NotificationManager.process_notifications, hg,
      _NotificationManager.dispatchList, _NotificationManager.clear, mapLookup]

theorem clear_then_dispatch_witness :
    (_NotificationManager.clear oneSubState).token_to_callback_list = [] ∧
    (_NotificationManager.process_notifications (okClient "t0" [])
        (_NotificationManager.clear oneSubState)).1 = .ok () ∧
    (_NotificationManager.process_notifications (okClient "t0" [sampleNotif "t0"])
        (_NotificationManager.clear oneSubState)).2.1
      = _NotificationManager.clear oneSubState := by
  have h := clear_then_dispatch (okClient "t0" []) oneSubState
  have h2 := clear_then_dispatch (okClient "t0" [sampleNotif "t0"]) oneSubState
  exact ⟨h.2.2.1, h.2.2.2.2.1 rfl, h2.2.2.2.1 [sampleNotif "t0"] rfl⟩

/-- The transport of the connectivity-transition scenario: connected()
reports the current flag, one connect() call flips it to true, disconnect()
reports success and leaves it disconnected; polling yields the given batch. -/
def flipClient (ns : List DatabaseNotification) : StClient Bool :=
  { connected := fun k => k,
    connect := fun _ => (.ok (), true),
    disconnect := fun _ => (true, false),
    get_notifications := fun k => (.ok ns, k) }

/-- C2 counterexample: the claim as stated fails.  A supervisor whose network
flag is true but whose database flag is still false (the state of a freshly
constructed supervisor once it learns the network is up), driven by a
transport whose connected() flips false to true after one connect(), emits no
false connectivity event at all and never calls clear on its tick, against
the claimed exactly-one of each. -/
theorem connectivity_transition_counterexample :
    (DatabaseWorker.do_work (flipClient []) ⟨false, true, ⟨Emitter.new⟩⟩
        ⟨false, _NotificationManager.new⟩).2.2.2
      = [SupEvent.disconnectCall, SupEvent.connectCall, SupEvent.emitStatus true] ∧
    (DatabaseWorker.do_work (flipClient []) ⟨false, true, ⟨Emitter.new⟩⟩
        ⟨false, _NotificationManager.new⟩).2.2.2.count (SupEvent.emitStatus false) = 0 ∧
    (DatabaseWorker.do_work (flipClient []) ⟨false, true, ⟨Emitter.new⟩⟩
        ⟨false, _NotificationManager.new⟩).2.2.2.count SupEvent.clearCall = 0 := by
  exact ⟨rfl, by decide, by decide⟩

/-- C2 (amended): starting from a supervisor whose network flag is true and
which was previously Connected (database flag true), driven by a transport
whose connected() is false and becomes true after exactly one connect() call,
the tick performs, in order: one registry clear, one connectivity-changed
false emission, the transport disconnect and connect, and one
connectivity-changed true emission — and attempts no dispatch; the next tick
performs the first dispatch.  So exactly one false event, then exactly one
true event, and exactly one clear all precede the first dispatch. -/
theorem connectivity_transition (em : Emitter Bool) (m : _NotificationManager)
    (ns : List DatabaseNotification) :
    let r1 := DatabaseWorker.do_work (flipClient ns) ⟨true, true, ⟨em⟩⟩ ⟨false, m⟩
    let r2 := DatabaseWorker.do_work (flipClient ns) r1.2.1 r1.2.2.1
    r1.2.2.2 = [SupEvent.clearCall, SupEvent.emitStatus false, SupEvent.disconnectCall,
      SupEvent.connectCall, SupEvent.emitStatus true] ∧
    r1.1 = .ok () ∧
    r1.2.1.is_db_connected = true ∧
    r1.2.2.1.mgr = _NotificationManager.clear m ∧
    r1.2.2.1.client = true ∧
    r2.2.2.2 = [SupEvent.dispatchCall] := by
  exact ⟨rfl, rfl, rfl, rfl, rfl, rfl⟩

/-- C8: on a tick taken while the network flag is false the shared database
state — transport client and subscription registry — is left untouched (no
clear, no subscribe, no unsubscribe, no dispatch, no transport call), the
tick succeeds, and the only effects are the database flag dropping to false
together with a single connectivity-changed false emission, and those only
when the supervisor was previously Connected. -/
theorem network_down_frame {κ : Type} (tc : StClient κ) (w : DatabaseWorker)
    (db : DbState κ) (hnw : w.is_nw_connected = false) :
    (DatabaseWorker.do_work tc w db).1 = .ok () ∧
    (DatabaseWorker.do_work tc w db).2.2.1 = db ∧
    (w.is_db_connected = true →
       (DatabaseWorker.do_work tc w db).2.1
         = DatabaseWorker.mk false w.is_nw_connected
             (WorkerEmitters.mk (w.emitters.connection_status.emit false)) ∧
       (DatabaseWorker.do_work tc w db).2.2.2 = [SupEvent.emitStatus false]) ∧
    (w.is_db_connected = false →
       (DatabaseWorker.do_work tc w db).2.1 = w ∧
       (DatabaseWorker.do_work tc w db).2.2.2 = []) := by
  cases hdb : w.is_db_connected with
  | false =>
    refine ⟨?_, ?_, ?_, ?_⟩ <;> simp [DatabaseWorker.do_work, hnw, hdb]
  | true =>
    refine ⟨?_, ?_, ?_, ?_⟩ <;> simp [DatabaseWorker.do_work, hnw, hdb]

theorem network_down_frame_witness :
    (DatabaseWorker.do_work (flipClient []) ⟨true, false, ⟨Emitter.new⟩⟩
        ⟨false, _NotificationManager.new⟩).2.2.1
      = (⟨false, _NotificationManager.new⟩ : DbState Bool) ∧
    (DatabaseWorker.do_work (flipClient []) ⟨true, false, ⟨Emitter.new⟩⟩
        ⟨false, _NotificationManager.new⟩).2.2.2 = [SupEvent.emitStatus false] := by
  have h := network_down_frame (flipClient []) ⟨true, false, ⟨Emitter.new⟩⟩
    ⟨false, _NotificationManager.new⟩ rfl
  exact ⟨h.2.1, (h.2.2.1 rfl).2⟩

/-- A worker that does nothing: its tick succeeds, keeps its state and leaves
the quit flag alone. -/
def unitWorker : WorkerTrait Unit :=
  ⟨(), fun s q => (.ok (), s, q), fun s => (.ok (), s)⟩

/-- C9: on every iteration the scheduler ticks every worker exactly once, in
registration order, whatever the individual ticks return — an erroring
worker stops neither the later workers of the same iteration nor any worker
of later iterations — and the loop exits only when the quit flag reads true:
if the flag is still false the loop ran its full fuel of iterations, so no
worker error ever terminates it. -/
theorem scheduler_isolation (σ : Type) (ws : List (WorkerTrait σ)) (quit : Bool)
    (fuel : Nat) :
    (∀ tr ∈ (Application.do_work ws quit fuel).2.2, tr = List.range ws.length) ∧
    ((Application.do_work ws quit fuel).2.1 = false →
       (Application.do_work ws quit fuel).2.2.length = fuel) := by
  induction fuel generalizing ws quit with
  | zero => simp [Application.do_work]
  | succ fuel ih =>
    by_cases hq : (Application.pass ws quit).2.1 = true
    · constructor
      · intro tr htr
        simp [Application.do_work, hq] at htr
        rw [htr]
        exact Application.pass_trace ws quit
      · intro hfalse
        simp [Application.do_work, hq] at hfalse
    · have hq2 : (Application.pass ws quit).2.1 = false := by
        cases h : (Application.pass ws quit).2.1
        · rfl
        · exact absurd h hq
      have ihh := ih (Application.pass ws quit).1 false
      have h2 : (Application.do_work ws quit (fuel + 1)).2.2
          = (Application.pass ws quit).2.2
            :: (Application.do_work (Application.pass ws quit).1 false fuel).2.2 := by
        simp [Application.do_work, hq2]
      have h1 : (Application.do_work ws quit (fuel + 1)).2.1
          = (Application.do_work (Application.pass ws quit).1 false fuel).2.1 := by
        simp [Application.do_work, hq2]
      constructor
      · intro tr htr
        rw [h2] at htr
        rcases List.mem_cons.mp htr with htr2 | htr2
        · rw [htr2]
          exact Application.pass_trace ws quit
        · rw [ihh.1 tr htr2, Application.pass_length]
      · intro hfalse
        rw [h1] at hfalse
        rw [h2]
        simp only [List.length_cons]
        rw [ihh.2 hfalse]

theorem scheduler_isolation_witness :
    (Application.do_work [unitWorker] false 1).2.2.length = 1 := by
  have h := scheduler_isolation Unit [unitWorker] false 1
  exact h.2 (by decide)

/-- C10: when the shared quit flag is already true as the loop starts and no
worker tick modifies the flag, the loop still performs one complete pass —
every registered worker ticked exactly once, in order — and only then exits
to deinitialization: the flag is consulted only after a full pass, never
before the first one. -/
theorem quit_preset_single_pass (σ : Type) (ws : List (WorkerTrait σ)) (fuel : Nat)
    (hq : ∀ w ∈ ws, ∀ s q, (w.do_work s q).2.2 = q) :
    (Application.do_work ws true (fuel + 1)).2.2 = [List.range ws.length] := by
  have hp : (Application.pass ws true).2.1 = true := Application.pass_quit ws true hq
  have h2 : (Application.do_work ws true (fuel + 1)).2.2
      = [(Application.pass ws true).2.2] := by
    simp [Application.do_work, hp]
  rw [h2, Application.pass_trace]

theorem quit_preset_single_pass_witness :
    (Application.do_work [unitWorker] true 1).2.2 = [List.range 1] :=
  quit_preset_single_pass Unit [unitWorker] 0 (by decide)

end Qdb
